import Mathlib

/-!
Shallow embedding of the `ai-podcast-generator` backend
(`src/backend/app/api/v1/podcast.py`, `src/backend/app/services/openai_service.py`),
together with proofs about the job state machine, the materials loader,
the readability filter and the local script composers.

Python strings are modelled as `List Char`; machine floats appearing in the
source occur only with exact decimal-tenth values (`progress`) or in
exactly-representable comparisons (the letter-density threshold `0.55`) and
are modelled as scaled / cross-multiplied natural-number arithmetic.  Python `str.isalpha`
and `str.lower` are modelled by their ASCII restrictions (all inputs used in
proofs are ASCII).  Filesystem and network effects are abstracted as explicit
inputs: the set of material files, the resolved pillar, and the outcome of
the remote OpenAI call are parameters of the corresponding functions.
-/

namespace Podcast

/-- Python `str`, modelled as a list of characters. -/
abbrev Str := List Char

/-- Characters stripped by Python `str.strip()` with no argument
(ASCII whitespace: space, tab, newline, carriage return, vertical tab,
form feed). -/
def pyIsSpace (c : Char) : Bool :=
  c = ' ' || c = '\t' || c = '\n' || c = '\x0d' || c = Char.ofNat 11 || c = Char.ofNat 12

/-- Python `str.lstrip()`. -/
def pyLstrip (s : Str) : Str := s.dropWhile pyIsSpace

/-- Python `str.rstrip()`. -/
def pyRstrip (s : Str) : Str := (s.reverse.dropWhile pyIsSpace).reverse

/-- Python `str.strip()`. -/
def pyStrip (s : Str) : Str := pyRstrip (pyLstrip s)

/-- `sum(ch.isalpha() for ch in s)` (ASCII restriction of `str.isalpha`). -/
def countAlpha (s : Str) : Nat := (s.filter Char.isAlpha).length

/-- Does `hay` start with `needle` (Python `str.startswith`)? -/
def pyStartsWith : Str → Str → Bool
  | _, [] => true
  | [], _ :: _ => false
  | h :: hs, n :: ns => h = n && pyStartsWith hs ns

/-- Python substring test `needle in hay`. -/
def containsSub (hay needle : Str) : Bool :=
  pyStartsWith hay needle ||
    match hay with
    | [] => false
    | _ :: t => containsSub t needle

/-- Python `hay.split(needle, 1)[1]`: the suffix after the first occurrence of
`needle` (callers guard with `needle in hay`; absent needle yields `[]`). -/
def splitOnceAfter : Str → Str → Str
  | hay, needle =>
    if pyStartsWith hay needle then hay.drop needle.length
    else
      match hay with
      | [] => []
      | _ :: t => splitOnceAfter t needle

/-- Python `sep.join(xs)`. -/
def pyJoin (sep : Str) : List Str → Str
  | [] => []
  | [x] => x
  | x :: xs => x ++ sep ++ pyJoin sep xs

/-- Python `str.lower()` on one character (ASCII restriction). -/
def pyLowerChar (c : Char) : Char := c.toLower

/-- Python `str.lower()`. -/
def pyLower (s : Str) : Str := s.map pyLowerChar

/-- Decimal rendering of a natural number, for Python f-string interpolation
of integers. -/
def natStr (n : Nat) : Str := (Nat.repr n).data

/-- The URL/email/hash/double-underscore markers rejected by the readability
filter (`openai_service.py`, lines 20 and 141). -/
def readableTokens : List Str :=
  ["http://".data, "https://".data, "www.".data, "@".data, "#".data, "__".data]

/-- `_readable_sentence` (`openai_service.py`, lines 12–22).  The float
comparison `letters / max(1, len(s)) < 0.55` is modelled exactly by the
cross-multiplied form `100 * letters < 55 * max 1 len` (both sides of the
source comparison are exactly the rounded values of the same rationals, and
the quotients involved are never within double-rounding distance of 0.55
without being equal to it). -/
def _readable_sentence (s0 : Str) : Bool :=
  let s := pyStrip s0
  if s.length < 20 || 260 < s.length then false
  else if 100 * countAlpha s < 55 * max 1 s.length then false
  else if readableTokens.any (fun tok => containsSub s tok) then false
  else true

/-- `is_readable_sentence`, the textually identical local copy of the filter
inside `_two_host_local_dialogue` (`openai_service.py`, lines 133–143). -/
def is_readable_sentence (s0 : Str) : Bool :=
  let s := pyStrip s0
  if s.length < 20 || 260 < s.length then false
  else if 100 * countAlpha s < 55 * max 1 s.length then false
  else if readableTokens.any (fun tok => containsSub s tok) then false
  else true

/-- `dropWhile` never lengthens a list (termination helper). -/
theorem len_dropWhile_le (p : Char → Bool) (l : List Char) :
    (l.dropWhile p).length ≤ l.length := by
  induction l with
  | nil => simp
  | cons c rest ih =>
    by_cases h : p c
    · simp [List.dropWhile, h]
      omega
    · simp [List.dropWhile, h]

/-- Worker for `sentSplit`: `cur` is the reversed accumulated segment, whose
head is the most recently consumed character (the regex lookbehind). -/
def sentSplitGo : Str → Str → List Str
  | [], cur => [cur.reverse]
  | c :: rest, cur =>
    if pyIsSpace c && (match cur with
        | p :: _ => p = '.' || p = '!' || p = '?'
        | [] => false) then
      cur.reverse :: sentSplitGo (rest.dropWhile pyIsSpace) []
    else sentSplitGo rest (c :: cur)
termination_by l _ => l.length
decreasing_by
  · have h := len_dropWhile_le pyIsSpace rest
    simp only [List.length_cons]
    omega
  · simp

/-- `re.split(r"(?<=[.!?])\s+", s)`: split at every maximal whitespace run
preceded by sentence-ending punctuation (`_DEF_SENT_SPLIT` /
`sent_split` in `openai_service.py`). -/
def sentSplit (s : Str) : List Str := sentSplitGo s []

/-- `re.sub(p+, repl, s)` for a character class `p`: replace every maximal run
of `p`-characters by the single character `repl`. -/
def collapseRuns (p : Char → Bool) (repl : Char) : Str → Str
  | [] => []
  | c :: rest =>
    if p c then repl :: collapseRuns p repl (rest.dropWhile p)
    else c :: collapseRuns p repl rest
termination_by l => l.length
decreasing_by
  · simp only [List.length_cons]
    exact Nat.lt_succ_of_le (len_dropWhile_le _ _)
  · simp

/-- Line-boundary characters of Python `str.splitlines` other than `'\r'`
(the composer replaces `'\r'` by `'\n'` before splitting). -/
def isLineBreak (c : Char) : Bool :=
  c = '\n' || c = Char.ofNat 11 || c = Char.ofNat 12 || c = Char.ofNat 28 ||
    c = Char.ofNat 29 || c = Char.ofNat 30 || c = Char.ofNat 133 ||
    c = Char.ofNat 8232 || c = Char.ofNat 8233

/-- Worker for `pySplitlines`. -/
def pySplitlinesGo : Str → Str → List Str
  | [], cur => [cur.reverse]
  | c :: rest, cur =>
    if isLineBreak c then
      cur.reverse :: (if rest = [] then [] else pySplitlinesGo rest [])
    else pySplitlinesGo rest (c :: cur)

/-- Python `str.splitlines()` (no terminal empty line; empty string gives
no lines). -/
def pySplitlines (s : Str) : List Str :=
  if s = [] then [] else pySplitlinesGo s []

/-- Worker for `pySplitWs`. -/
def pySplitWsGo : Str → Str → List Str
  | [], cur => if cur = [] then [] else [cur.reverse]
  | c :: rest, cur =>
    if pyIsSpace c then
      if cur = [] then pySplitWsGo rest []
      else cur.reverse :: pySplitWsGo rest []
    else pySplitWsGo rest (c :: cur)

/-- Python `str.split()` with no argument: split on whitespace runs, dropping
empty pieces. -/
def pySplitWs (s : Str) : List Str := pySplitWsGo s []

-- -------------------------------------------------------------------------
-- `_two_host_local_dialogue` (`openai_service.py`, lines 78–200)
-- -------------------------------------------------------------------------

/-- `f"[Host A] {s}"`. -/
def hostA (s : Str) : Str := "[Host A] ".data ++ s

/-- `f"[Host B] {s}"`. -/
def hostB (s : Str) : Str := "[Host B] ".data ++ s

/-- The skipped separator markers (`skip_prefixes`, line 89). -/
def skipMarkers : List Str := ["--- file:".data, "page ".data, "json:".data]

/-- Lines dropped while building `content_lines` (lines 96–98). -/
def isSkippedLine (ln : Str) : Bool :=
  skipMarkers.any (fun m => pyStartsWith (pyLower ln) m) ||
    ln ∈ ["\x7b".data, "\x7d".data, "[".data, "]".data]

/-- `content_lines` (lines 91–99): keep blank lines as `[]`, drop separator
lines, keep everything else. -/
def contentLines (rawLines : List Str) : List Str :=
  rawLines.filterMap fun ln =>
    if ln = [] then some []
    else if isSkippedLine ln then none
    else some ln

/-- State of the paragraph-building loop (lines 102–121). -/
structure ParaState where
  paragraphs : List Str
  buf : List Str
deriving Repr, DecidableEq

/-- `flush_buf` (lines 105–110). -/
def flushBuf (ps : ParaState) : ParaState :=
  match ps.buf with
  | [] => ps
  | _ =>
    let paragraph := pyStrip (pyJoin [' '] ps.buf)
    if paragraph = [] then { ps with buf := [] }
    else { paragraphs := ps.paragraphs ++ [paragraph], buf := [] }

/-- Does the right-stripped string end with `.`, `!` or `?`
(`joined.rstrip().endswith((".", "!", "?"))`, line 119)? -/
def endsSentence (s : Str) : Bool :=
  match (pyRstrip s).reverse with
  | c :: _ => c = '.' || c = '!' || c = '?'
  | [] => false

/-- One iteration of the paragraph loop (lines 112–120). -/
def paraStep (ps : ParaState) (ln : Str) : ParaState :=
  if ln = [] then flushBuf ps
  else
    let buf' := ps.buf ++ [ln]
    let joined := pyJoin [' '] buf'
    if 220 ≤ joined.length ∧ endsSentence joined then
      flushBuf { ps with buf := buf' }
    else { ps with buf := buf' }

/-- `paragraphs` after the loop and final flush (lines 102–125), including the
whole-text fallback when no paragraph was produced. -/
def buildParagraphs (content : List Str) : List Str :=
  let ps := flushBuf (content.foldl paraStep ⟨[], []⟩)
  if ps.paragraphs = [] then
    [pyStrip (pyJoin [' '] (content.filter (fun ln => ¬ ln = [])))]
  else ps.paragraphs

/-- Truncation of a segment title to 90 characters (lines 166–168 and
316–317): over-long titles become the first 87 characters plus `…`. -/
def truncTitle (t : Str) : Str :=
  if 90 < t.length then t.take 87 ++ ['…'] else t

/-- ASCII apostrophe. -/
def apos : Char := Char.ofNat 39

/-- One spoken line of a segment: speaker alternation by `(base + j) % 2` and
the light paraphrase starters for `j = 0`, `j = 1` (lines 173–182, duplicated
at lines 319–329). -/
def spokenLine (base j : Nat) (s : Str) : Str :=
  let spoken :=
    if j = 0 then "Key point: ".data ++ s
    else if j = 1 then
      "Put simply, ".data ++
        (match s with
         | c₁ :: c₂ :: rest => pyLowerChar c₁ :: c₂ :: rest
         | _ => s)
    else s
  if (base + j) % 2 = 0 then hostA spoken else hostB spoken

/-- State of the per-paragraph emission loop (lines 155–191). -/
structure DlgState where
  script : List Str
  segIdx : Nat
  lineCounter : Nat
deriving Repr, DecidableEq

/-- Readable sentences of a normalized paragraph (lines 159–161). -/
def paraReadable (para : Str) : List Str :=
  let p := pyJoin [' '] (pySplitWs para)
  let sentences := (sentSplit p).filterMap fun s =>
    let s' := pyStrip s
    if s' = [] then none else some s'
  sentences.filter is_readable_sentence

/-- One iteration of the paragraph emission loop (lines 157–191). -/
def dlgPara (st : DlgState) (para : Str) : DlgState :=
  match paraReadable para with
  | [] => st
  | r0 :: rrest =>
    let readable := r0 :: rrest
    let header := hostA ("Segment ".data ++ natStr st.segIdx ++ ": ".data ++ truncTitle r0)
    let segIdx' := st.segIdx + 1
    let spoken := (readable.take 5).enum.map fun p => spokenLine st.lineCounter p.1 p.2
    let script' := st.script ++ [header] ++ spoken
    let lineCounter' := st.lineCounter + (readable.take 5).length
    let script'' :=
      if segIdx' % 6 = 0 then
        script' ++ [hostB "Quick recap so far: we are staying close to the source text and moving in order.".data]
      else script'
    { script := script'', segIdx := segIdx', lineCounter := lineCounter' }

/-- `_two_host_local_dialogue` (`openai_service.py`, lines 78–200): the
deterministic local two-host composer for flat materials text. -/
def two_host_local_dialogue (materials_text : Str) : Str :=
  let text := materials_text.map fun c => if c = '\x0d' then '\n' else c
  let rawLines := (pySplitlines text).map pyStrip
  let paragraphs := buildParagraphs (contentLines rawLines)
  let intro : List Str :=
    [hostA "Welcome to the podcast.".data,
     hostB "In this episode, we will walk through the provided materials in clear English and connect the ideas step by step.".data]
  let st := paragraphs.foldl dlgPara ⟨intro, 1, 0⟩
  let outro : List Str :=
    [hostA "That brings us to the end of today’s walkthrough.".data,
     hostB "For full context, review the original materials alongside this episode. Thanks for listening.".data]
  pyJoin ['\n'] (st.script ++ outro)

-- -------------------------------------------------------------------------
-- Content pillar model and `_two_host_local_from_pillar`
-- (`openai_service.py`, lines 25–51 and 244–347)
-- -------------------------------------------------------------------------

/-- One entry of a pillar's `chunks` list.  A non-dict entry or a missing /
non-string `text` field is modelled as `text = none` (it is skipped either
way, line 39–41). -/
structure PChunk where
  text : Option Str
deriving Repr, DecidableEq

/-- One subtopic of a pillar topic (fields read at lines 283–286). -/
structure PSub where
  name : Option Str
  title : Option Str
  summary : Option Str
  notes : Option Str
deriving Repr, DecidableEq

/-- One topic/section of a pillar (fields read at lines 273–280). -/
structure PTopic where
  name : Option Str
  title : Option Str
  summary : Option Str
  overview : Option Str
  subtopics : Option (List PSub)
  items : Option (List PSub)
deriving Repr, DecidableEq

/-- A content pillar as consumed by the script producer.  The source works on
a raw JSON dict; only the fields actually read are modelled, each `Option`
standing for presence of the key with a value of the expected shape
(`output_chunks` models `pillar["output"]["chunks"]`). -/
structure Pillar where
  title : Option Str
  document_title : Option Str
  topics : Option (List PTopic)
  sections : Option (List PTopic)
  chunks : Option (List PChunk)
  output_chunks : Option (List PChunk)
deriving Repr, DecidableEq

/-- Python `a or d` for an optional string `a` (both `None` and `""` are
falsy). -/
def pyOrStr (a : Option Str) (d : Str) : Str :=
  match a with
  | some s => if s = [] then d else s
  | none => d

/-- Python `a or d` for an optional list `a` (both `None` and `[]` are
falsy). -/
def pyOrList {α : Type} (a : Option (List α)) (d : List α) : List α :=
  match a with
  | some [] => d
  | some (x :: xs) => x :: xs
  | none => d

/-- The symbol-run character class `[_*/#=<>{}\[\]|`~^]` of
`_extract_sentences_from_chunks` (line 43) and `_NONWORD_RUN_RE`. -/
def symbolRunChars : Str := "_*/#=<>\x7b\x7d\\[]|`~^".data

/-- Membership in the symbol-run class. -/
def isSymbolRun (c : Char) : Bool := symbolRunChars.contains c

/-- `_extract_sentences_from_chunks` picks `pillar["chunks"]` if present,
else `pillar["output"]["chunks"]`, else no chunks (lines 27–35). -/
def pillarChunks (p : Pillar) : List PChunk :=
  match p.chunks with
  | some cs => cs
  | none =>
    match p.output_chunks with
    | some cs => cs
    | none => []

/-- Sentence extraction from one chunk (lines 38–50): cleanup of symbol runs
and whitespace, sentence split, strip, and the readability filter. -/
def chunkSentences (ch : PChunk) : List Str :=
  match ch.text with
  | none => []
  | some t0 =>
    if t0 = [] then []
    else
      let t1 := collapseRuns isSymbolRun ' ' t0
      let t2 := pyStrip (collapseRuns pyIsSpace ' ' t1)
      if t2 = [] then []
      else
        let sentences := (sentSplit t2).filterMap fun s =>
          let s' := pyStrip s
          if s' = [] then none else some s'
        sentences.filter _readable_sentence

/-- `_extract_sentences_from_chunks` (`openai_service.py`, lines 25–51). -/
def _extract_sentences_from_chunks (p : Pillar) : List Str :=
  (pillarChunks p).flatMap chunkSentences

/-- Lines emitted for one pillar topic, 1-based index `tIdx`
(lines 272–295). -/
def pillarTopicLines (tIdx : Nat) (topic : PTopic) : List Str :=
  let tName := pyStrip (pyOrStr topic.name (pyOrStr topic.title ("Topic ".data ++ natStr tIdx)))
  let tSum := pyStrip (pyOrStr topic.summary (pyOrStr topic.overview []))
  let subs := pyOrList topic.subtopics (pyOrList topic.items [])
  let subLines := subs.enum.flatMap fun p =>
    let sIdx := p.1 + 1
    let sub := p.2
    let sName := pyStrip (pyOrStr sub.name (pyOrStr sub.title ("Key point ".data ++ natStr sIdx)))
    let sSum := pyStrip (pyOrStr sub.summary (pyOrStr sub.notes []))
    [hostA ("— ".data ++ sName ++ ".".data)] ++
      (if sSum = [] then [] else [hostB ("In short: ".data ++ sSum)])
  [hostA ("Segment ".data ++ natStr tIdx ++ ": ".data ++ tName)] ++
    (if tSum = [] then [] else [hostB ("Big picture: ".data ++ tSum)]) ++
    subLines ++
    (if tIdx % 3 = 0 then
      [hostB "Quick recap so far: we are following the pillar structure and keeping close to its summaries.".data]
     else [])

/-- The chunked-pillar while loop (lines 306–338): sliding windows of 5–7
sentences, alternating speakers, periodic checkpoint lines. -/
def chunkGo (sents : List Str) (seg i : Nat) : List Str :=
  if _hlt : i < sents.length then
    match (sents.drop i).take 7 with
    | [] => []
    | w0 :: wrest =>
      let window := w0 :: wrest
      let header := hostA ("Segment ".data ++ natStr seg ++ ": ".data ++ truncTitle w0)
      let spoken := window.enum.map fun p => spokenLine i p.1 p.2
      let seg' := seg + 1
      let step := max 5 (min 7 window.length)
      ([header] ++ spoken) ++
        (if seg' % 4 = 0 then
          [hostB "Quick checkpoint: we’re moving in order and summarizing concisely.".data]
         else []) ++
        chunkGo sents seg' (i + step)
  else []
termination_by sents.length - i
decreasing_by
  have h5 : 5 ≤ max 5 (min 7 (w0 :: wrest).length) := Nat.le_max_left _ _
  omega

/-- `_two_host_local_from_pillar` (`openai_service.py`, lines 244–347): the
deterministic local two-host composer for a structured content pillar. -/
def two_host_local_from_pillar (p : Pillar) : Str :=
  let title := pyStrip (pyOrStr p.title (pyOrStr p.document_title "the document".data))
  let topics := pyOrList p.topics (pyOrList p.sections [])
  let intro : List Str :=
    [hostA "Welcome to the podcast.".data,
     hostB ("Today we dive into ".data ++ title ++ ", using the provided content as our guide.".data),
     hostA "We will move topic by topic and keep the language clear and practical.".data]
  let body :=
    if topics = [] then
      let sents := _extract_sentences_from_chunks p
      if sents = [] then
        [hostB "We received limited structured notes, so this will be a brief overview.".data]
      else chunkGo (sents.take 180) 1 0
    else
      topics.enum.flatMap fun q => pillarTopicLines (q.1 + 1) q.2
  let outro : List Str :=
    [hostA "That wraps up our walkthrough of the content pillar.".data,
     hostB "For full context, review the original documents alongside these notes. Thanks for listening.".data]
  pyJoin ['\n'] (intro ++ body ++ outro)

-- -------------------------------------------------------------------------
-- `generate_script` / `generate_script_from_pillar`
-- (`openai_service.py`, lines 203–236 and 350–377)
-- -------------------------------------------------------------------------

/-- Outcome of the remote OpenAI call: the client may be absent (no API key
configured, line 69), the call may raise, or it returns content (an empty
string also standing for a `None` message or an empty `choices` list —
all falsy, line 233). -/
inductive RemoteOutcome
  | noClient
  | raised
  | content (s : Str)
deriving Repr, DecidableEq

/-- `generate_script` (`openai_service.py`, lines 203–236), with the remote
call abstracted into a `RemoteOutcome` input: any remote failure or empty
response falls back to the deterministic local composer, applied to the
slice of the prompt after the first `"SOURCE NOTES"` marker. -/
def generate_script (remote : RemoteOutcome) (prompt : Str) : Str :=
  let materials_text :=
    if containsSub prompt "SOURCE NOTES".data then splitOnceAfter prompt "SOURCE NOTES".data
    else prompt
  match remote with
  | .noClient => two_host_local_dialogue materials_text
  | .raised => two_host_local_dialogue materials_text
  | .content c => if c = [] then two_host_local_dialogue materials_text else c

/-- `generate_script_from_pillar` (`openai_service.py`, lines 350–377), with
the remote call abstracted into a `RemoteOutcome` input. -/
def generate_script_from_pillar (remote : RemoteOutcome) (p : Pillar) : Str :=
  match remote with
  | .noClient => two_host_local_from_pillar p
  | .raised => two_host_local_from_pillar p
  | .content c => if c = [] then two_host_local_from_pillar p else c

-- -------------------------------------------------------------------------
-- Materials loader and prompt builder
-- (`src/backend/app/api/v1/podcast.py`, lines 124–172)
-- -------------------------------------------------------------------------

/-- Python truthiness of an `Optional[str]` (`None` and `""` are falsy). -/
def pyTruthy : Option Str → Bool
  | none => false
  | some s => !s.isEmpty

/-- `PER_FILE_CAP` (line 126). -/
def PER_FILE_CAP : Nat := 200000

/-- `GLOBAL_CAP` (line 127). -/
def GLOBAL_CAP : Nat := 500000

/-- `f"\n--- FILE: {os.path.basename(fp)} ---\n"` (line 134). -/
def fileHeader (name : Str) : Str := "\n--- FILE: ".data ++ name ++ " ---\n".data

/-- The accumulation loop of `_load_materials_text` (lines 129–144) over the
abstracted file list (basename, extracted text), with the running total of
appended block lengths.  Files with empty extracted text are skipped; a block
is the per-file header plus at most `PER_FILE_CAP` characters of the file
text; if appending would push the total past `GLOBAL_CAP` the block is
truncated to the remaining budget (or dropped when even the header does not
fit) and the loop breaks once the total reaches `GLOBAL_CAP`. -/
def lmtGo : List (Str × Str) → Nat → List Str
  | [], _ => []
  | (name, text) :: rest, total =>
    if text = [] then lmtGo rest total
    else
      let snippet := text.take PER_FILE_CAP
      let header := fileHeader name
      let block := header ++ snippet
      if GLOBAL_CAP < total + block.length then
        let remaining := GLOBAL_CAP - total
        if remaining ≤ header.length then []
        else
          let block' := header ++ snippet.take (remaining - header.length)
          let total' := total + block'.length
          if GLOBAL_CAP ≤ total' then [block'] else block' :: lmtGo rest total'
      else
        let total' := total + block.length
        if GLOBAL_CAP ≤ total' then [block] else block :: lmtGo rest total'

/-- `_load_materials_text` (`podcast.py`, lines 124–145): the filesystem walk
(`_iter_material_files` + `_read_file_text`) is abstracted as the input list
of (basename, extracted text) pairs; the collected blocks are joined with
`"\n"`. -/
def _load_materials_text (files : List (Str × Str)) : Str :=
  pyJoin ['\n'] (lmtGo files 0)

/-- The fixed guide text of `_build_prompt` (lines 165–170). -/
def promptGuide : Str :=
  ("\nWrite a complete conversational podcast script in clear US English with TWO hosts (Host A and Host B).\n" ++
   "Requirements: natural dialogue, faithful to the provided notes, no invented facts, smooth transitions.\n" ++
   "Structure: intro, 3–6 topical segments with back-and-forth discussion, and an outro with concise takeaways.\n" ++
   "Aim for a substantial episode (roughly 8–12 minutes of audio).\n").data

/-- `_build_prompt` (`podcast.py`, lines 159–172). -/
def _build_prompt (title description : Option Str) (materials_text : Str) : Str :=
  let intro :=
    (if pyTruthy title then "Title: ".data ++ title.getD [] ++ "\n".data else []) ++
    (if pyTruthy description then "Description: ".data ++ description.getD [] ++ "\n".data else [])
  intro ++ promptGuide ++ "\nSOURCE NOTES (from PDFs/JSON):\n".data ++ materials_text

-- -------------------------------------------------------------------------
-- Job state machine (`src/backend/app/api/v1/podcast.py`, lines 178–455)
-- -------------------------------------------------------------------------

/-- The `status` strings of `_State` (line 185). -/
inductive Status
  | queued | running | done | failed | cancelled
deriving Repr, DecidableEq

/-- The `materials_set` selector `Literal["1", "2"]` (line 191). -/
inductive MSet
  | one | two
deriving Repr, DecidableEq

/-- The `_State` record (lines 178–191).  Timestamps are modelled as abstract
clock ticks supplied by the scheduler at each mutation
(`datetime.utcnow()`).  `progress` is stored in exact tenths of the source's
`0.0 .. 1.0` float scale (every value the source assigns — `0`, `i/10.0`,
`0.9`, `1.0` — is an exact decimal tenth, so `progress = 10 × float`
loses nothing). -/
structure Job where
  id : Str
  title : Str
  description : Option Str
  voice : Option Str
  script : Option Str
  source_urls : List Str
  status : Status
  progress : Nat
  audio_url : Option Str
  error : Option Str
  created_at : Nat
  updated_at : Nat
  materials_set : Option MSet
deriving Repr, DecidableEq

/-- The injection points for Python exceptions inside the orchestrator's try
block: materials resolution (`_load_content_pillar` / `_load_materials_text`),
script production, filesystem (`os.makedirs`), speech synthesis
(`text_to_speech`). -/
inductive ExcPoint
  | resolve | produce | fs | synth
deriving Repr, DecidableEq

/-- The abstracted environment of one orchestration run: the resolved pillar
and flat materials text for the job's materials set, the remote-call
outcomes, and at most one injected exception (`some (p, msg)` makes the call
at point `p` raise with message `str(exc) = msg` whenever executed). -/
structure Env where
  pillar : Option Pillar
  materialsText : Str
  remoteFlat : RemoteOutcome
  remotePillar : RemoteOutcome
  exc : Option (ExcPoint × Str)
deriving Repr, DecidableEq

/-- The injected exception at point `p`, if any. -/
def excAt (env : Env) (p : ExcPoint) : Option Str :=
  match env.exc with
  | some (q, m) => if q = p then some m else none
  | none => none

/-- The script placeholder built when no materials are found (lines 318–324). -/
def placeholderScript (title : Str) (source_urls : List Str) : Str :=
  let joined0 := pyJoin ", ".data source_urls
  let joined := if joined0 = [] then "no sources".data else joined0
  "[Auto-script] Podcast ".data ++ [apos] ++ title ++ [apos] ++ ". Sources: ".data ++
    joined ++ ". This is a demo script — replace with the actual generated content.".data

/-- One iteration of the script-generation loop (lines 300–325, checkpoint
`i ∈ {1,2,3}`), between two `await asyncio.sleep` yield points: the progress
update always happens; the script is produced only when the job's `script` is
falsy (`None` or `""`).  Returns the produced job and whether the Script
Producer (`generate_script` / `generate_script_from_pillar`) was invoked;
an error carries `str(exc)` together with the job state at raise time (the
mutations already applied persist on the shared record). -/
def scriptCheckpoint (env : Env) (now : Nat) (i : Nat) (j0 : Job) :
    Except (Str × Job) (Job × Bool) :=
  let j := { j0 with progress := i, updated_at := now }
  if pyTruthy j.script then .ok (j, false)
  else
    match excAt env .resolve with
    | some m => .error (m, j)
    | none =>
      match env.pillar with
      | some pillar =>
        match excAt env .produce with
        | some m => .error (m, j)
        | none =>
          .ok ({ j with script := some (generate_script_from_pillar env.remotePillar pillar),
                        updated_at := now }, true)
      | none =>
        if (pyStrip env.materialsText).isEmpty then
          .ok ({ j with script := some (placeholderScript j.title j.source_urls),
                        updated_at := now }, false)
        else
          match excAt env .produce with
          | some m => .error (m, j)
          | none =>
            let prompt := _build_prompt (some j.title) j.description env.materialsText
            .ok ({ j with script := some (generate_script env.remoteFlat prompt),
                          updated_at := now }, true)

/-- The synthesis and publication tail (lines 327–343), executed directly
after the third checkpoint with no intervening yield point: `os.makedirs`,
`text_to_speech`, then progress 0.9, `audio_url`, progress 1.0 and
`status = "done"` in one atomic stretch. -/
def synthesisTail (env : Env) (now : Nat) (j : Job) : Except (Str × Job) Job :=
  match excAt env .fs with
  | some m => .error (m, j)
  | none =>
    match excAt env .synth with
    | some m => .error (m, j)
    | none =>
      let j1 := { j with progress := 9, updated_at := now }
      .ok { j1 with audio_url := some ("/media/audio/".data ++ j.id ++ ".mp3".data),
                    progress := 10, status := .done, updated_at := now }

/-- Ghost effects of one orchestrator segment. -/
structure StepFx where
  producerInvoked : Bool
  artifactWritten : Bool
deriving Repr, DecidableEq

/-- The body of the orchestrator's try block executed in atomic segment
`pc ∈ {1,2,3}`: segment `pc < 3` is one loop checkpoint; segment 3 is the
last checkpoint followed by the synthesis tail.  `.error (m, jr)` means a
Python exception with message `m` reaches the top-level `except` with the
shared record in state `jr`. -/
def orchTry (env : Env) (now : Nat) (pc : Nat) (j : Job) :
    Except (Str × Job) (Job × StepFx) :=
  if pc = 3 then
    match scriptCheckpoint env now 3 j with
    | .error e => .error e
    | .ok (j1, inv) =>
      match synthesisTail env now j1 with
      | .error e => .error e
      | .ok j2 => .ok (j2, ⟨inv, true⟩)
  else
    match scriptCheckpoint env now pc j with
    | .error e => .error e
    | .ok (j1, inv) => .ok (j1, ⟨inv, false⟩)

/-- The top-level `except Exception` handler (lines 345–348). -/
def handleExc (now : Nat) (m : Str) (j : Job) : Job :=
  { j with status := .failed, error := some m, updated_at := now }

/-- `state.status in {"cancelled", "failed", "done"}` (line 292). -/
def terminalish (st : Status) : Bool :=
  st = .cancelled || st = .failed || st = .done

/-- System state for one job: the shared `_State` record, whether the id is
still a key of `_STORE` (the orchestrator keeps its object reference even
after a pop), the next orchestrator segment (`pc = 0`: entry guard not yet
run; `pc = 4`: orchestration returned), whether `{id}.mp3` exists on disk,
and the ghost count of Script Producer invocations. -/
structure Sys where
  job : Job
  inStore : Bool
  pc : Nat
  artifact : Bool
  producerCalls : Nat
deriving Repr, DecidableEq

/-- One atomic stretch of `_generate_podcast` (lines 283–348) between yield
points.  Segment 0 is the store lookup, the entry guard and the transition to
`running` (lines 291–297, up to the first `await`); segments 1–3 run
`orchTry`; any exception is converted by the handler; after segment 3 (or an
early return / exception) the task is finished (`pc = 4`). -/
def orchStep (env : Env) (now : Nat) (s : Sys) : Sys :=
  if s.pc = 0 then
    if !s.inStore || terminalish s.job.status then { s with pc := 4 }
    else { s with job := { s.job with status := .running, updated_at := now }, pc := 1 }
  else if s.pc ≤ 3 then
    match orchTry env now s.pc s.job with
    | .error (m, jr) => { s with job := handleExc now m jr, pc := 4 }
    | .ok (j, fx) =>
      { s with job := j,
               artifact := s.artifact || fx.artifactWritten,
               producerCalls := s.producerCalls + (if fx.producerInvoked then 1 else 0),
               pc := if s.pc = 3 then 4 else s.pc + 1 }
  else s

/-- `PodcastStatusResponse` produced by `_as_status` (lines 262–272 and
351–363). -/
structure Snapshot where
  id : Str
  status : Status
  progress : Nat
  title : Str
  description : Option Str
  voice : Option Str
  audio_url : Option Str
  error : Option Str
  created_at : Nat
  updated_at : Nat
deriving Repr, DecidableEq

/-- `_as_status` (lines 351–363). -/
def _as_status (j : Job) : Snapshot :=
  ⟨j.id, j.status, j.progress, j.title, j.description, j.voice,
   j.audio_url, j.error, j.created_at, j.updated_at⟩

/-- `DELETE /podcasts/{id}` — `cancel_or_delete_podcast` (lines 418–439) on a
job present in the store: a `done`/`failed` job is popped and its artifact
removed (best effort); any other job is marked `cancelled` with `updated_at`
bumped.  Returns the store entry afterwards (`none` = removed), whether the
artifact still exists, and the returned snapshot. -/
def cancel_or_delete (now : Nat) (j : Job) (artifactExists : Bool) :
    Option Job × Bool × Snapshot :=
  if j.status = .done ∨ j.status = .failed then
    (none, false, _as_status j)
  else
    let j' := { j with status := .cancelled, updated_at := now }
    (some j', artifactExists, _as_status j')

/-- The cancel/delete endpoint as a system step (a lookup miss is a 404
no-op). -/
def cancelStep (now : Nat) (s : Sys) : Sys :=
  if s.inStore then
    match cancel_or_delete now s.job s.artifact with
    | (none, art, _) => { s with inStore := false, artifact := art }
    | (some j', art, _) => { s with job := j', artifact := art }
  else s

/-- The job record built by `create_podcast` (lines 369–391). -/
def create_podcast (id title : Str) (description voice script : Option Str)
    (source_urls : List Str) (materials_set : Option MSet) (now : Nat) : Job :=
  { id := id, title := title, description := description, voice := voice,
    script := script, source_urls := source_urls, status := .queued,
    progress := 0, audio_url := none, error := none,
    created_at := now, updated_at := now, materials_set := materials_set }

/-- System state right after `create_podcast` stored the record and scheduled
the background task. -/
def initSys (j : Job) : Sys :=
  { job := j, inStore := true, pc := 0, artifact := false, producerCalls := 0 }

/-- The `done` record synthesized by `_bootstrap_from_storage` for an
orphaned `{stem}.mp3` artifact (lines 197–234). -/
def bootstrapJob (stem : Str) (mtime : Nat) : Job :=
  { id := stem, title := "Episode ".data ++ stem, description := none,
    voice := none, script := none, source_urls := [], status := .done,
    progress := 1,
    audio_url := some ("/media/audio/".data ++ stem ++ ".mp3".data),
    error := none, created_at := mtime, updated_at := mtime,
    materials_set := none }

/-- System state of a job adopted by the startup/rescan reconciliation (no
background task is scheduled for it). -/
def bootSys (stem : Str) (mtime : Nat) : Sys :=
  { job := bootstrapJob stem mtime, inStore := true, pc := 0,
    artifact := true, producerCalls := 0 }

/-- Scheduler actions that can interleave on one job: the next orchestrator
segment, or the Job Control API's cancel/delete operation. -/
inductive Act
  | orch | cancel
deriving Repr, DecidableEq

/-- One scheduled action, at clock time `a.2`. -/
def step (env : Env) (s : Sys) (a : Act × Nat) : Sys :=
  match a.1 with
  | .orch => orchStep env a.2 s
  | .cancel => cancelStep a.2 s

/-- A cooperative interleaving: the actions run atomically in list order. -/
def run (env : Env) (acts : List (Act × Nat)) (s : Sys) : Sys :=
  acts.foldl (step env) s

/-- States reachable for one job: created via the API or adopted by the
startup reconciliation, then any interleaving of orchestrator segments and
cancel/delete calls. -/
inductive Reach (env : Env) : Sys → Prop
  | create (id title : Str) (description voice script : Option Str)
      (source_urls : List Str) (materials_set : Option MSet) (now : Nat) :
      Reach env (initSys (create_podcast id title description voice script source_urls materials_set now))
  | boot (stem : Str) (mtime : Nat) : Reach env (bootSys stem mtime)
  | orch (now : Nat) {s : Sys} : Reach env s → Reach env (orchStep env now s)
  | cancel (now : Nat) {s : Sys} : Reach env s → Reach env (cancelStep now s)

-- -------------------------------------------------------------------------
-- Auxiliary definitions for the verification results
-- -------------------------------------------------------------------------

/-- The result/error field invariant of §3 of the spec: `audio_url` set iff
`done`, `error` set iff `failed`. -/
def fieldInv (j : Job) : Prop :=
  (j.audio_url ≠ none ↔ j.status = .done) ∧ (j.error ≠ none ↔ j.status = .failed)

/-- Strengthened system invariant: the field invariant, plus the fact that a
job whose orchestration is between checkpoints is `running` or
`cancelled`. -/
def sysInv (s : Sys) : Prop :=
  fieldInv s.job ∧ (1 ≤ s.pc → s.pc ≤ 3 → s.job.status = .running ∨ s.job.status = .cancelled)

/-- Total number of characters in the accumulated material blocks (the
`total` counter of `_load_materials_text`). -/
def blockTotal (bs : List Str) : Nat := (bs.map List.length).sum

/-- Success projection of an exception-monad result. -/
def exceptOk {ε α : Type} : Except ε α → Option α
  | .ok a => some a
  | .error _ => none

/-- A sample environment: no pillar, no materials, no remote client, no
exception. -/
def sampleEnv : Env := ⟨none, [], .noClient, .noClient, none⟩

/-- A sample freshly created job. -/
def sampleJob : Job :=
  create_podcast "job-1".data "Demo".data none none none [] none 0

/-- An environment whose speech-synthesis call raises. -/
def synthFailEnv : Env := ⟨none, [], .noClient, .noClient, some (.synth, "boom".data)⟩

/-- An environment whose materials-resolution call raises. -/
def resolveFailEnv : Env := ⟨none, [], .noClient, .noClient, some (.resolve, "disk error".data)⟩

/-- An empty pillar value. -/
def emptyPillar : Pillar := ⟨none, none, none, none, none, none⟩

/-- A running job waiting at checkpoint 1. -/
def checkpoint1Sys : Sys :=
  { job := { sampleJob with status := Status.running }, inStore := true,
    pc := 1, artifact := false, producerCalls := 0 }

/-- The three-large-file input exhibiting a materials blob longer than
`GLOBAL_CAP`. -/
def c8Files : List (Str × Str) :=
  [(['a'], List.replicate 250000 'x'),
   (['a'], List.replicate 250000 'x'),
   (['a'], List.replicate 250000 'x')]

/-- A string of 30 letters padded with 250 trailing spaces (raw length 280,
stripped length 30). -/
def paddedSentence : Str := List.replicate 30 'a' ++ List.replicate 250 ' '

-- -------------------------------------------------------------------------
-- Theorems
-- -------------------------------------------------------------------------

/-- A finished orchestration task (`pc ≥ 4`) never acts again. -/
theorem orchStep_finished (env : Env) (now : Nat) (s : Sys) (h : 4 ≤ s.pc) :
    orchStep env now s = s := by
  unfold orchStep
  have h0 : ¬ s.pc = 0 := by omega
  have h3 : ¬ s.pc ≤ 3 := by omega
  simp [h0, h3]

/-- Scheduling further orchestrator segments on a finished task changes
nothing. -/
theorem run_orch_only_finished (env : Env) (ts : List Nat) (s : Sys) (h : 4 ≤ s.pc) :
    run env (ts.map fun t => (Act.orch, t)) s = s := by
  induction ts with
  | nil => rfl
  | cons t ts ih =>
    simp only [List.map_cons, run, List.foldl_cons]
    rw [show step env s (Act.orch, t) = s from orchStep_finished env t s h]
    exact ih

/-- **C1** (code bug witness): the orchestrator checks the job status only in
its entry guard and never re-reads it after a yield point, so a cancel that
lands after the first segment is overwritten.  Concretely: after segment 0
and a cancel the job is `cancelled`; the next resumed segment applies a
progress update (0 → 0.1) to the cancelled job; running the remaining
segments ends with `status = done` — the forbidden edge `cancelled → done`. -/
theorem C1_cancel_interleaving_resurrected :
    (run sampleEnv [(Act.orch, 1), (Act.cancel, 2)] (initSys sampleJob)).job.status = Status.cancelled ∧
    (run sampleEnv [(Act.orch, 1), (Act.cancel, 2)] (initSys sampleJob)).job.progress = 0 ∧
    (run sampleEnv [(Act.orch, 1), (Act.cancel, 2), (Act.orch, 3)] (initSys sampleJob)).job.status = Status.cancelled ∧
    (run sampleEnv [(Act.orch, 1), (Act.cancel, 2), (Act.orch, 3)] (initSys sampleJob)).job.progress = 1 ∧
    (run sampleEnv [(Act.orch, 1), (Act.cancel, 2), (Act.orch, 3), (Act.orch, 4), (Act.orch, 5)]
        (initSys sampleJob)).job.status = Status.done := by
  decide

/-- **C4**: invoking orchestration on a job already in a terminal-ish state
(`cancelled`, `failed`, `done`) is a no-op: however many orchestrator
segments are scheduled, the job record, store membership, artifact and
producer-invocation count are unchanged. -/
theorem C4_terminal_reentry_noop (env : Env) (s : Sys) (ts : List Nat)
    (h0 : s.pc = 0) (hterm : terminalish s.job.status = true) :
    (run env (ts.map fun t => (Act.orch, t)) s).job = s.job ∧
    (run env (ts.map fun t => (Act.orch, t)) s).inStore = s.inStore ∧
    (run env (ts.map fun t => (Act.orch, t)) s).artifact = s.artifact ∧
    (run env (ts.map fun t => (Act.orch, t)) s).producerCalls = s.producerCalls := by
  cases ts with
  | nil => exact ⟨rfl, rfl, rfl, rfl⟩
  | cons t ts =>
    have hstep : step env s (Act.orch, t) = { s with pc := 4 } := by
      simp [step, orchStep, h0, hterm]
    simp only [List.map_cons, run, List.foldl_cons]
    rw [show step env s (Act.orch, t) = { s with pc := 4 } from hstep]
    rw [show List.foldl (step env) { s with pc := 4 } (ts.map fun t => (Act.orch, t)) =
          run env (ts.map fun t => (Act.orch, t)) { s with pc := 4 } from rfl]
    rw [run_orch_only_finished env ts { s with pc := 4 } (by simp)]
    exact ⟨rfl, rfl, rfl, rfl⟩

/-- Witness for C4 at a concrete cancelled job and three scheduled
segments. -/
theorem C4_witness :
    (run sampleEnv ([0, 1, 2].map fun t => (Act.orch, t))
        (initSys { sampleJob with status := Status.cancelled })).job =
      (initSys { sampleJob with status := Status.cancelled }).job ∧
    (run sampleEnv ([0, 1, 2].map fun t => (Act.orch, t))
        (initSys { sampleJob with status := Status.cancelled })).inStore =
      (initSys { sampleJob with status := Status.cancelled }).inStore ∧
    (run sampleEnv ([0, 1, 2].map fun t => (Act.orch, t))
        (initSys { sampleJob with status := Status.cancelled })).artifact =
      (initSys { sampleJob with status := Status.cancelled }).artifact ∧
    (run sampleEnv ([0, 1, 2].map fun t => (Act.orch, t))
        (initSys { sampleJob with status := Status.cancelled })).producerCalls =
      (initSys { sampleJob with status := Status.cancelled }).producerCalls :=
  C4_terminal_reentry_noop sampleEnv (initSys { sampleJob with status := Status.cancelled })
    [0, 1, 2] rfl (by decide)

/-- A script checkpoint never touches `status`, `audio_url` or `error`
(success case). -/
theorem scriptCheckpoint_ok_fields {env : Env} {now i : Nat} {j j1 : Job} {inv : Bool}
    (h : scriptCheckpoint env now i j = .ok (j1, inv)) :
    j1.status = j.status ∧ j1.audio_url = j.audio_url ∧ j1.error = j.error := by
  simp only [scriptCheckpoint] at h
  repeat' split at h
  all_goals
    first
      | (simp only [Except.ok.injEq, Prod.mk.injEq] at h
         obtain ⟨h1, h2⟩ := h
         subst h1
         exact ⟨rfl, rfl, rfl⟩)
      | simp at h

/-- A script checkpoint never touches `status`, `audio_url` or `error`
(exception case). -/
theorem scriptCheckpoint_err_fields {env : Env} {now i : Nat} {j jr : Job} {m : Str}
    (h : scriptCheckpoint env now i j = .error (m, jr)) :
    jr.status = j.status ∧ jr.audio_url = j.audio_url ∧ jr.error = j.error := by
  simp only [scriptCheckpoint] at h
  repeat' split at h
  all_goals
    first
      | (simp only [Except.error.injEq, Prod.mk.injEq] at h
         obtain ⟨h1, h2⟩ := h
         subst h2
         exact ⟨rfl, rfl, rfl⟩)
      | simp at h

/-- A successful synthesis tail sets `status = done` and an `audio_url`,
leaving `error` alone. -/
theorem synthesisTail_ok_fields {env : Env} {now : Nat} {j j2 : Job}
    (h : synthesisTail env now j = .ok j2) :
    j2.status = Status.done ∧ (∃ u, j2.audio_url = some u) ∧ j2.error = j.error := by
  simp only [synthesisTail] at h
  repeat' split at h
  all_goals
    first
      | (simp only [Except.ok.injEq] at h
         subst h
         exact ⟨rfl, ⟨_, rfl⟩, rfl⟩)
      | simp at h

/-- A synthesis tail that raises has not yet mutated the record. -/
theorem synthesisTail_err_eq {env : Env} {now : Nat} {j jr : Job} {m : Str}
    (h : synthesisTail env now j = .error (m, jr)) : jr = j := by
  simp only [synthesisTail] at h
  repeat' split at h
  all_goals
    first
      | (simp only [Except.error.injEq, Prod.mk.injEq] at h
         exact h.2.symm)
      | simp at h

/-- An orchestrator segment that raises leaves `status`, `audio_url` and
`error` as they were when it started. -/
theorem orchTry_err_fields {env : Env} {now pc : Nat} {j jr : Job} {m : Str}
    (h : orchTry env now pc j = .error (m, jr)) :
    jr.status = j.status ∧ jr.audio_url = j.audio_url ∧ jr.error = j.error := by
  unfold orchTry at h
  split at h
  · cases hsc : scriptCheckpoint env now 3 j with
    | error e =>
      rw [hsc] at h
      cases e with
      | mk m0 j0 =>
        simp only [Except.error.injEq, Prod.mk.injEq] at h
        obtain ⟨hm, hj⟩ := h
        subst hj
        exact scriptCheckpoint_err_fields hsc
    | ok p =>
      rw [hsc] at h
      cases p with
      | mk j1 inv =>
        dsimp only at h
        cases hst : synthesisTail env now j1 with
        | error e =>
          rw [hst] at h
          cases e with
          | mk m0 j0 =>
            simp only [Except.error.injEq, Prod.mk.injEq] at h
            obtain ⟨hm, hj⟩ := h
            subst hj
            have h1 := scriptCheckpoint_ok_fields hsc
            have h2 := synthesisTail_err_eq hst
            subst h2
            exact h1
        | ok j2 => rw [hst] at h; simp at h
  · cases hsc : scriptCheckpoint env now pc j with
    | error e =>
      rw [hsc] at h
      cases e with
      | mk m0 j0 =>
        simp only [Except.error.injEq, Prod.mk.injEq] at h
        obtain ⟨hm, hj⟩ := h
        subst hj
        exact scriptCheckpoint_err_fields hsc
    | ok p => rw [hsc] at h; simp at h

/-- A successful orchestrator segment either preserves `status`, `audio_url`
and `error` (checkpoints 1, 2) or — in segment 3 — finishes the job with
`status = done` and an `audio_url`, preserving `error`. -/
theorem orchTry_ok_fields {env : Env} {now pc : Nat} {j j1 : Job} {fx : StepFx}
    (h : orchTry env now pc j = .ok (j1, fx)) :
    (pc ≠ 3 ∧ j1.status = j.status ∧ j1.audio_url = j.audio_url ∧ j1.error = j.error) ∨
    (pc = 3 ∧ j1.status = Status.done ∧ (∃ u, j1.audio_url = some u) ∧ j1.error = j.error) := by
  unfold orchTry at h
  split at h
  · rename_i h3
    right
    refine ⟨h3, ?_⟩
    cases hsc : scriptCheckpoint env now 3 j with
    | error e => rw [hsc] at h; simp at h
    | ok p =>
      rw [hsc] at h
      cases p with
      | mk ja inv =>
        dsimp only at h
        cases hst : synthesisTail env now ja with
        | error e => rw [hst] at h; simp at h
        | ok j2 =>
          rw [hst] at h
          simp only [Except.ok.injEq, Prod.mk.injEq] at h
          obtain ⟨hj, hfx⟩ := h
          subst hj
          obtain ⟨hs1, hu1, he1⟩ := synthesisTail_ok_fields hst
          obtain ⟨hs0, hu0, he0⟩ := scriptCheckpoint_ok_fields hsc
          exact ⟨hs1, hu1, he1.trans he0⟩
  · rename_i h3
    left
    refine ⟨h3, ?_⟩
    cases hsc : scriptCheckpoint env now pc j with
    | error e => rw [hsc] at h; simp at h
    | ok p =>
      rw [hsc] at h
      cases p with
      | mk ja inv =>
        dsimp only at h
        simp only [Except.ok.injEq, Prod.mk.injEq] at h
        obtain ⟨hj, hfx⟩ := h
        subst hj
        exact scriptCheckpoint_ok_fields hsc

/-- `sysInv` holds after any orchestrator segment. -/
theorem sysInv_orchStep (env : Env) (now : Nat) (s : Sys) (h : sysInv s) :
    sysInv (orchStep env now s) := by
  obtain ⟨⟨ha, he⟩, hpc⟩ := h
  unfold orchStep
  split
  · rename_i h0
    split
    · exact ⟨⟨ha, he⟩, fun h1 h2 => by simp at h2⟩
    · rename_i hguard
      have hterm : terminalish s.job.status = false := by
        revert hguard
        cases s.inStore <;> cases hq : terminalish s.job.status <;> simp
      have hnd : s.job.status ≠ Status.done := by
        intro hq
        simp [terminalish, hq] at hterm
      have hnf : s.job.status ≠ Status.failed := by
        intro hq
        simp [terminalish, hq] at hterm
      have ha0 : s.job.audio_url = none := by
        by_contra hx
        exact hnd (ha.mp hx)
      have he0 : s.job.error = none := by
        by_contra hx
        exact hnf (he.mp hx)
      refine ⟨⟨?_, ?_⟩, fun _ _ => Or.inl rfl⟩
      · simp [ha0]
      · simp [he0]
  · rename_i h0
    split
    · rename_i h3
      have hst := hpc (by omega) h3
      have ha0 : s.job.audio_url = none := by
        by_contra hx
        rcases hst with hq | hq <;> rw [ha.mp hx] at hq <;> exact Status.noConfusion hq
      have he0 : s.job.error = none := by
        by_contra hx
        rcases hst with hq | hq <;> rw [he.mp hx] at hq <;> exact Status.noConfusion hq
      split
      · rename_i m jr heq
        obtain ⟨hs1, hu1, he1⟩ := orchTry_err_fields heq
        refine ⟨⟨?_, ?_⟩, fun h1 h2 => by simp at h2⟩
        · simp [handleExc, hu1, ha0]
        · simp [handleExc]
      · rename_i j1 fx heq
        rcases orchTry_ok_fields heq with ⟨hne3, hs1, hu1, he1⟩ | ⟨heq3, hs1, hu1, he1⟩
        · refine ⟨⟨?_, ?_⟩, fun _ _ => ?_⟩
          · rw [hu1, hs1]; exact ha
          · rw [he1, hs1]; exact he
          · rw [hs1]; exact hst
        · obtain ⟨u, hu⟩ := hu1
          refine ⟨⟨?_, ?_⟩, fun h1 h2 => ?_⟩
          · simp [hu, hs1]
          · rw [he1, hs1]
            simp [he0]
          · simp [heq3] at h2
    · exact ⟨⟨ha, he⟩, hpc⟩

/-- `sysInv` holds after a cancel/delete call. -/
theorem sysInv_cancelStep (now : Nat) (s : Sys) (h : sysInv s) :
    sysInv (cancelStep now s) := by
  obtain ⟨⟨ha, he⟩, hpc⟩ := h
  by_cases hin : s.inStore
  · by_cases hterm : s.job.status = Status.done ∨ s.job.status = Status.failed
    · have hred : cancelStep now s = { s with inStore := false, artifact := false } := by
        simp [cancelStep, cancel_or_delete, hin, hterm]
      rw [hred]
      exact ⟨⟨ha, he⟩, hpc⟩
    · have hred : cancelStep now s =
          { s with job := { s.job with status := Status.cancelled, updated_at := now } } := by
        simp [cancelStep, cancel_or_delete, hin, hterm]
      rw [hred]
      have hnd : s.job.status ≠ Status.done := fun hq => hterm (Or.inl hq)
      have hnf : s.job.status ≠ Status.failed := fun hq => hterm (Or.inr hq)
      have ha0 : s.job.audio_url = none := by
        by_contra hx
        exact hnd (ha.mp hx)
      have he0 : s.job.error = none := by
        by_contra hx
        exact hnf (he.mp hx)
      refine ⟨⟨?_, ?_⟩, fun _ _ => Or.inr rfl⟩
      · simp [ha0]
      · simp [he0]
  · have hred : cancelStep now s = s := by simp [cancelStep, hin]
    rw [hred]
    exact ⟨⟨ha, he⟩, hpc⟩

/-- `sysInv` holds at creation. -/
theorem sysInv_create (id title : Str) (description voice script : Option Str)
    (source_urls : List Str) (materials_set : Option MSet) (now : Nat) :
    sysInv (initSys (create_podcast id title description voice script source_urls materials_set now)) := by
  refine ⟨⟨?_, ?_⟩, fun h1 h2 => by simp [initSys] at h1⟩ <;>
    simp [initSys, create_podcast]

/-- `sysInv` holds for reconciliation-adopted jobs. -/
theorem sysInv_boot (stem : Str) (mtime : Nat) : sysInv (bootSys stem mtime) := by
  refine ⟨⟨?_, ?_⟩, fun h1 h2 => by simp [bootSys] at h1⟩ <;>
    simp [bootSys, bootstrapJob]

/-- **C2**: in every reachable state — after creation, any orchestrator
segment, any cancel/delete call, and for reconciliation-adopted jobs —
`audio_url` is set iff `status = done` and `error` is set iff
`status = failed`. -/
theorem C2_result_fields_iff_status (env : Env) (s : Sys) (h : Reach env s) :
    fieldInv s.job := by
  have hinv : sysInv s := by
    induction h with
    | create id title description voice script source_urls materials_set now =>
      exact sysInv_create id title description voice script source_urls materials_set now
    | boot stem mtime => exact sysInv_boot stem mtime
    | orch now hr ih => exact sysInv_orchStep env now _ ih
    | cancel now hr ih => exact sysInv_cancelStep now _ ih
  exact hinv.1

/-- Witness for C2 at a concrete freshly created job. -/
theorem C2_witness : fieldInv (initSys sampleJob).job :=
  C2_result_fields_iff_status sampleEnv (initSys sampleJob)
    (Reach.create "job-1".data "Demo".data none none none [] none 0)

/-- **C3**: an exception raised anywhere inside the try block of an
orchestrator segment (materials resolution, script production, filesystem,
speech synthesis — all modelled as `orchTry` returning `.error`) is caught by
the top-level handler: the background step still returns (the model's step
function is total), the task is finished, and the job ends `failed` with
`error` set to the exception's message. -/
theorem C3_pipeline_exception_caught (env : Env) (now : Nat) (s : Sys) (m : Str)
    (h1 : 1 ≤ s.pc) (h2 : s.pc ≤ 3)
    (hraise : ∃ jr, orchTry env now s.pc s.job = .error (m, jr)) :
    (orchStep env now s).pc = 4 ∧
    (orchStep env now s).job.status = Status.failed ∧
    (orchStep env now s).job.error = some m := by
  obtain ⟨jr, hr⟩ := hraise
  have h0 : ¬ s.pc = 0 := by omega
  unfold orchStep
  rw [if_neg h0, if_pos h2, hr]
  exact ⟨rfl, rfl, rfl⟩

/-- Witness for C3: a job at checkpoint 1 whose materials resolution raises
`"disk error"`. -/
theorem C3_witness :
    (orchStep resolveFailEnv 7 checkpoint1Sys).pc = 4 ∧
    (orchStep resolveFailEnv 7 checkpoint1Sys).job.status = Status.failed ∧
    (orchStep resolveFailEnv 7 checkpoint1Sys).job.error = some "disk error".data :=
  C3_pipeline_exception_caught resolveFailEnv 7 checkpoint1Sys "disk error".data
    (by decide) (by decide) ⟨_, rfl⟩

/-- A checkpoint on a job whose `script` is truthy only advances progress. -/
theorem scriptCheckpoint_truthy (env : Env) (now i : Nat) (j : Job)
    (h : pyTruthy j.script = true) :
    scriptCheckpoint env now i j = .ok ({ j with progress := i, updated_at := now }, false) := by
  simp [scriptCheckpoint, h]

/-- A successful synthesis tail never touches `script`. -/
theorem synthesisTail_ok_script {env : Env} {now : Nat} {j j2 : Job}
    (h : synthesisTail env now j = .ok j2) : j2.script = j.script := by
  simp only [synthesisTail] at h
  repeat' split at h
  all_goals
    first
      | (simp only [Except.ok.injEq] at h
         subst h
         rfl)
      | simp at h

/-- On a job with a truthy `script`, an orchestrator segment never changes
the script and never invokes the Script Producer. -/
theorem orchTry_truthy (env : Env) (now pc : Nat) (j : Job)
    (h : pyTruthy j.script = true) :
    (∀ j1 fx, orchTry env now pc j = .ok (j1, fx) →
        j1.script = j.script ∧ fx.producerInvoked = false) ∧
    (∀ m jr, orchTry env now pc j = .error (m, jr) → jr.script = j.script) := by
  unfold orchTry
  by_cases h3 : pc = 3
  · rw [if_pos h3, scriptCheckpoint_truthy env now 3 j h]
    dsimp only
    constructor
    · intro j1 fx hok
      cases hst : synthesisTail env now { j with progress := 3, updated_at := now } with
      | error e => rw [hst] at hok; simp at hok
      | ok j2 =>
        rw [hst] at hok
        simp only [Except.ok.injEq, Prod.mk.injEq] at hok
        obtain ⟨hj, hfx⟩ := hok
        subst hj
        subst hfx
        exact ⟨(synthesisTail_ok_script hst).trans rfl, rfl⟩
    · intro m jr herr
      cases hst : synthesisTail env now { j with progress := 3, updated_at := now } with
      | error e =>
        rw [hst] at herr
        cases e with
        | mk m0 j0 =>
          simp only [Except.error.injEq, Prod.mk.injEq] at herr
          obtain ⟨hm, hj⟩ := herr
          subst hj
          rw [synthesisTail_err_eq hst]
      | ok j2 => rw [hst] at herr; simp at herr
  · rw [if_neg h3, scriptCheckpoint_truthy env now pc j h]
    dsimp only
    constructor
    · intro j1 fx hok
      simp only [Except.ok.injEq, Prod.mk.injEq] at hok
      obtain ⟨hj, hfx⟩ := hok
      subst hj
      subst hfx
      exact ⟨rfl, rfl⟩
    · intro m jr herr
      simp at herr

/-- An orchestrator segment on a job with a truthy script keeps the script
and the producer-call count. -/
theorem orchStep_keeps_truthy_script (env : Env) (now : Nat) (s : Sys)
    (h : pyTruthy s.job.script = true) :
    (orchStep env now s).job.script = s.job.script ∧
    (orchStep env now s).producerCalls = s.producerCalls := by
  unfold orchStep
  split
  · split
    · exact ⟨rfl, rfl⟩
    · exact ⟨rfl, rfl⟩
  · split
    · split
      · rename_i m jr heq
        have hs := (orchTry_truthy env now s.pc s.job h).2 m jr heq
        exact ⟨by simp [handleExc, hs], rfl⟩
      · rename_i j1 fx heq
        obtain ⟨hs, hf⟩ := (orchTry_truthy env now s.pc s.job h).1 j1 fx heq
        exact ⟨hs, by simp [hf]⟩
    · exact ⟨rfl, rfl⟩

/-- A cancel/delete call never touches `script` or the producer-call
count. -/
theorem cancelStep_keeps_script (now : Nat) (s : Sys) :
    (cancelStep now s).job.script = s.job.script ∧
    (cancelStep now s).producerCalls = s.producerCalls := by
  by_cases hin : s.inStore
  · by_cases hterm : s.job.status = Status.done ∨ s.job.status = Status.failed
    · simp [cancelStep, cancel_or_delete, hterm, hin]
    · simp [cancelStep, cancel_or_delete, hterm, hin]
  · simp [cancelStep, hin]

/-- A non-empty supplied script is preserved (with a zero producer-call
count) by every interleaving of orchestrator segments and cancel calls. -/
theorem run_keeps_script (env : Env) (acts : List (Act × Nat)) (s : Sys) (sc : Str)
    (hsc : sc ≠ []) (h : s.job.script = some sc) (hp0 : s.producerCalls = 0) :
    (run env acts s).job.script = some sc ∧ (run env acts s).producerCalls = 0 := by
  induction acts generalizing s with
  | nil => exact ⟨h, hp0⟩
  | cons a rest ih =>
    have htr : pyTruthy s.job.script = true := by
      rw [h]
      cases sc with
      | nil => exact absurd rfl hsc
      | cons c cs => rfl
    have hstep : (step env s a).job.script = some sc ∧ (step env s a).producerCalls = 0 := by
      cases a with
      | mk act t =>
        cases act with
        | orch =>
          obtain ⟨h1, h2⟩ := orchStep_keeps_truthy_script env t s htr
          refine ⟨?_, ?_⟩
          · rw [show step env s (Act.orch, t) = orchStep env t s from rfl, h1, h]
          · rw [show step env s (Act.orch, t) = orchStep env t s from rfl, h2, hp0]
        | cancel =>
          obtain ⟨h1, h2⟩ := cancelStep_keeps_script t s
          refine ⟨?_, ?_⟩
          · rw [show step env s (Act.cancel, t) = cancelStep t s from rfl, h1, h]
          · rw [show step env s (Act.cancel, t) = cancelStep t s from rfl, h2, hp0]
    exact ih (step env s a) hstep.1 hstep.2

/-- **C5**: a job created with a non-empty `script` keeps it verbatim through
every interleaving of orchestrator segments and cancel calls (in particular
to any terminal state), and the Script Producer is never invoked for it. -/
theorem C5_user_script_preserved (env : Env) (sc : Str) (hsc : sc ≠ [])
    (id title : Str) (description voice : Option Str) (source_urls : List Str)
    (mset : Option MSet) (now0 : Nat) (acts : List (Act × Nat)) :
    (run env acts (initSys (create_podcast id title description voice (some sc)
        source_urls mset now0))).job.script = some sc ∧
    (run env acts (initSys (create_podcast id title description voice (some sc)
        source_urls mset now0))).producerCalls = 0 :=
  run_keeps_script env acts _ sc hsc rfl rfl

/-- Witness for C5: a supplied script survives a full four-segment run. -/
theorem C5_witness :
    (run sampleEnv [(Act.orch, 1), (Act.orch, 2), (Act.orch, 3), (Act.orch, 4)]
        (initSys (create_podcast "j5".data "T".data none none (some "My script.".data)
          [] none 0))).job.script = some "My script.".data ∧
    (run sampleEnv [(Act.orch, 1), (Act.orch, 2), (Act.orch, 3), (Act.orch, 4)]
        (initSys (create_podcast "j5".data "T".data none none (some "My script.".data)
          [] none 0))).producerCalls = 0 :=
  C5_user_script_preserved sampleEnv "My script.".data (by decide) "j5".data "T".data
    none none [] none 0 [(Act.orch, 1), (Act.orch, 2), (Act.orch, 3), (Act.orch, 4)]

/-- **C7**: both local composers are pure functions of their declared inputs;
two runs on equal inputs produce byte-identical scripts. -/
theorem C7_local_composers_deterministic (m₁ m₂ : Str) (p₁ p₂ : Pillar)
    (hm : m₁ = m₂) (hp : p₁ = p₂) :
    two_host_local_dialogue m₁ = two_host_local_dialogue m₂ ∧
    two_host_local_from_pillar p₁ = two_host_local_from_pillar p₂ := by
  subst hm
  subst hp
  exact ⟨rfl, rfl⟩

/-- Witness for C7 at concrete inputs. -/
theorem C7_witness :
    two_host_local_dialogue "notes".data = two_host_local_dialogue "notes".data ∧
    two_host_local_from_pillar emptyPillar = two_host_local_from_pillar emptyPillar :=
  C7_local_composers_deterministic _ _ _ _ rfl rfl

/-- `pyStartsWith` decides list prefixing. -/
theorem pyStartsWith_iff (hay needle : Str) :
    pyStartsWith hay needle = true ↔ needle <+: hay := by
  induction needle generalizing hay with
  | nil => simp [pyStartsWith]
  | cons n ns ih =>
    cases hay with
    | nil => simp [pyStartsWith]
    | cons h hs =>
      simp only [pyStartsWith, Bool.and_eq_true, decide_eq_true_eq, ih,
        List.cons_prefix_cons]
      constructor
      · rintro ⟨h1, h2⟩
        exact ⟨h1.symm, h2⟩
      · rintro ⟨h1, h2⟩
        exact ⟨h1.symm, h2⟩

/-- `containsSub` decides Python's substring test: `needle in hay` holds iff
`needle` is a contiguous infix of `hay`. -/
theorem containsSub_iff (hay needle : Str) :
    containsSub hay needle = true ↔ needle <:+: hay := by
  induction hay with
  | nil =>
    simp only [containsSub, pyStartsWith_iff, Bool.or_eq_true]
    simp [List.infix_nil, List.prefix_nil]
  | cons c rest ih =>
    simp only [containsSub, Bool.or_eq_true, pyStartsWith_iff, ih]
    exact (List.infix_cons_iff).symm

set_option maxRecDepth 40000 in
/-- **C6** counterexample: the filter strips surrounding whitespace before
every check, so this raw string of length 280 — which the claim (length
within `[20, 260]`) says must be rejected — is in fact accepted: its stripped
form is 30 letters. -/
theorem C6_counterexample_strip_before_length :
    paddedSentence.length = 280 ∧ _readable_sentence paddedSentence = true := by
  constructor
  · decide
  · decide

/-- **C6** amended: the filter first strips leading/trailing whitespace and
then applies all three conditions to the *stripped* string: it accepts
exactly when the stripped length is within `[20, 260]`, letters make up at
least 55% of the stripped characters, and the stripped string contains no
marker substring; `is_readable_sentence` is the same function. -/
theorem C6_amended_stripped_characterization (s : Str) :
    (_readable_sentence s = true ↔
      (20 ≤ (pyStrip s).length ∧ (pyStrip s).length ≤ 260 ∧
       (0.55 : ℚ) ≤ (countAlpha (pyStrip s) : ℚ) / ((max 1 (pyStrip s).length : Nat) : ℚ) ∧
       ∀ tok ∈ readableTokens, ¬ tok <:+: pyStrip s)) ∧
    (∀ t, is_readable_sentence t = _readable_sentence t) := by
  refine ⟨?_, fun t => rfl⟩
  have hmaxpos : (0 : ℚ) < ((max 1 (pyStrip s).length : Nat) : ℚ) := by
    have : (0 : Nat) < max 1 (pyStrip s).length :=
      Nat.lt_of_lt_of_le Nat.one_pos (Nat.le_max_left _ _)
    exact_mod_cast this
  have hq : ((0.55 : ℚ) ≤ (countAlpha (pyStrip s) : ℚ) / ((max 1 (pyStrip s).length : Nat) : ℚ)) ↔
      ¬(100 * countAlpha (pyStrip s) < 55 * max 1 (pyStrip s).length) := by
    rw [show (0.55 : ℚ) = 11/20 by norm_num, le_div_iff₀ hmaxpos]
    constructor
    · intro h hcon
      have hc : (100 : ℚ) * (countAlpha (pyStrip s) : ℚ) <
          55 * ((max 1 (pyStrip s).length : Nat) : ℚ) := by exact_mod_cast hcon
      linarith
    · intro h
      have hle : 55 * max 1 (pyStrip s).length ≤ 100 * countAlpha (pyStrip s) :=
        Nat.le_of_not_lt h
      have hc : (55 : ℚ) * ((max 1 (pyStrip s).length : Nat) : ℚ) ≤
          100 * (countAlpha (pyStrip s) : ℚ) := by exact_mod_cast hle
      linarith
  constructor
  · intro h
    simp only [_readable_sentence] at h
    repeat' split at h
    · simp at h
    · simp at h
    · simp at h
    · rename_i hc1 hc2 hc3
      simp only [Bool.or_eq_true, decide_eq_true_eq, not_or] at hc1
      refine ⟨by omega, by omega, hq.mpr hc2, ?_⟩
      intro tok htok hcon
      apply hc3
      simp only [List.any_eq_true]
      exact ⟨tok, htok, (containsSub_iff _ _).mpr hcon⟩
  · rintro ⟨h1, h2, h3, h4⟩
    simp only [_readable_sentence]
    rw [if_neg, if_neg, if_neg]
    · intro hcon
      simp only [List.any_eq_true] at hcon
      obtain ⟨tok, htok, hsub⟩ := hcon
      exact h4 tok htok ((containsSub_iff _ _).mp hsub)
    · exact hq.mp h3
    · simp only [Bool.or_eq_true, decide_eq_true_eq, not_or]
      omega

/-- Joining blocks with `"\n"` yields the sum of the block lengths plus one
separator between consecutive blocks. -/
theorem pyJoin_newline_length (l : List Str) :
    (pyJoin ['\n'] l).length = blockTotal l + (l.length - 1) := by
  induction l with
  | nil => simp [pyJoin, blockTotal]
  | cons x t ih =>
    cases t with
    | nil => simp [pyJoin, blockTotal]
    | cons y xs =>
      simp only [pyJoin, blockTotal, List.map_cons, List.sum_cons, List.length_append,
        List.length_cons, List.length_nil] at ih ⊢
      omega

/-- The accumulated length of the blocks collected by `_load_materials_text`
never exceeds the global budget. -/
theorem lmtGo_total_le (files : List (Str × Str)) (total : Nat) (h : total ≤ GLOBAL_CAP) :
    total + blockTotal (lmtGo files total) ≤ GLOBAL_CAP := by
  induction files generalizing total with
  | nil => simpa [lmtGo, blockTotal]
  | cons f rest ih =>
    cases f with
    | mk name text =>
      simp only [lmtGo]
      split
      · exact ih total h
      · split
        · rename_i hovf
          split
          · simpa [blockTotal]
          · rename_i hrem
            have hblk : (fileHeader name ++
                (text.take PER_FILE_CAP).take (GLOBAL_CAP - total - (fileHeader name).length)).length ≤
                GLOBAL_CAP - total := by
              simp only [List.length_append, List.length_take]
              omega
            split
            · rename_i hfull
              simp only [blockTotal, List.map_cons, List.map_nil, List.sum_cons,
                List.sum_nil]
              omega
            · rename_i hnotfull
              have hrec := ih (total + (fileHeader name ++
                (text.take PER_FILE_CAP).take (GLOBAL_CAP - total - (fileHeader name).length)).length)
                (by omega)
              simp only [blockTotal, List.map_cons, List.sum_cons] at hrec ⊢
              omega
        · rename_i hnovf
          split
          · rename_i hfull
            simp only [blockTotal, List.map_cons, List.map_nil, List.sum_cons, List.sum_nil]
            omega
          · rename_i hnotfull
            have hrec := ih (total + (fileHeader name ++ text.take PER_FILE_CAP).length)
              (by omega)
            simp only [blockTotal, List.map_cons, List.sum_cons] at hrec ⊢
            omega

/-- Every block collected by `_load_materials_text` consists of one file's
header followed by at most `PER_FILE_CAP` characters of that file's text. -/
theorem lmtGo_blocks_shape (files : List (Str × Str)) (total : Nat) :
    ∀ b ∈ lmtGo files total, ∃ p ∈ files, ∃ k, k ≤ PER_FILE_CAP ∧
      b = fileHeader p.1 ++ p.2.take k := by
  induction files generalizing total with
  | nil => simp [lmtGo]
  | cons f rest ih =>
    cases f with
    | mk name text =>
      intro b hb
      simp only [lmtGo] at hb
      split at hb
      · obtain ⟨p, hp, k, hk, hbe⟩ := ih total b hb
        exact ⟨p, List.mem_cons_of_mem _ hp, k, hk, hbe⟩
      · split at hb
        · split at hb
          · simp at hb
          · have hshape : fileHeader name ++
                (text.take PER_FILE_CAP).take (GLOBAL_CAP - total - (fileHeader name).length) =
                fileHeader name ++
                  text.take (min (GLOBAL_CAP - total - (fileHeader name).length) PER_FILE_CAP) := by
              rw [List.take_take]
            split at hb
            · simp only [List.mem_singleton] at hb
              subst hb
              exact ⟨(name, text), List.mem_cons_self _ _,
                min (GLOBAL_CAP - total - (fileHeader name).length) PER_FILE_CAP,
                Nat.min_le_right _ _, hshape⟩
            · rcases List.mem_cons.mp hb with rfl | hb2
              · exact ⟨(name, text), List.mem_cons_self _ _,
                  min (GLOBAL_CAP - total - (fileHeader name).length) PER_FILE_CAP,
                  Nat.min_le_right _ _, hshape⟩
              · obtain ⟨p, hp, k, hk, hbe⟩ := ih _ b hb2
                exact ⟨p, List.mem_cons_of_mem _ hp, k, hk, hbe⟩
        · split at hb
          · simp only [List.mem_singleton] at hb
            subst hb
            exact ⟨(name, text), List.mem_cons_self _ _, PER_FILE_CAP, Nat.le_refl _, rfl⟩
          · rcases List.mem_cons.mp hb with rfl | hb2
            · exact ⟨(name, text), List.mem_cons_self _ _, PER_FILE_CAP, Nat.le_refl _, rfl⟩
            · obtain ⟨p, hp, k, hk, hbe⟩ := ih _ b hb2
              exact ⟨p, List.mem_cons_of_mem _ hp, k, hk, hbe⟩

/-- One appended full block that leaves the running total strictly below the
budget. -/
theorem lmtGo_cons_no_overflow (name text : Str) (rest : List (Str × Str)) (total : Nat)
    (hne : ¬ text = [])
    (hlt : total + (fileHeader name ++ text.take PER_FILE_CAP).length < GLOBAL_CAP) :
    lmtGo ((name, text) :: rest) total =
      (fileHeader name ++ text.take PER_FILE_CAP) ::
        lmtGo rest (total + (fileHeader name ++ text.take PER_FILE_CAP).length) := by
  simp only [lmtGo]
  rw [if_neg hne, if_neg (by omega :
      ¬ GLOBAL_CAP < total + (fileHeader name ++ text.take PER_FILE_CAP).length),
    if_neg (by omega :
      ¬ GLOBAL_CAP ≤ total + (fileHeader name ++ text.take PER_FILE_CAP).length)]

/-- The overflow step: the block is truncated to the remaining budget,
appended, and — the truncated total reaching the budget — accumulation
stops. -/
theorem lmtGo_cons_truncate (name text : Str) (rest : List (Str × Str)) (total : Nat)
    (hne : ¬ text = [])
    (hovf : GLOBAL_CAP < total + (fileHeader name ++ text.take PER_FILE_CAP).length)
    (hrem : (fileHeader name).length < GLOBAL_CAP - total)
    (hfull : GLOBAL_CAP ≤ total + (fileHeader name ++
      (text.take PER_FILE_CAP).take (GLOBAL_CAP - total - (fileHeader name).length)).length) :
    lmtGo ((name, text) :: rest) total =
      [fileHeader name ++
        (text.take PER_FILE_CAP).take (GLOBAL_CAP - total - (fileHeader name).length)] := by
  simp only [lmtGo]
  rw [if_neg hne, if_pos hovf,
    if_neg (by omega : ¬ GLOBAL_CAP - total ≤ (fileHeader name).length),
    if_pos hfull]

/-- **C8** amended: every collected block takes at most `PER_FILE_CAP`
characters from its file's text after the per-file header; the accumulated
block total is at most `GLOBAL_CAP` (truncating mid-file and stopping when
the budget is reached); but the returned blob joins the blocks with one
`"\n"` separator between consecutive blocks, so its length is the block
total plus (number of blocks − 1) and can exceed `GLOBAL_CAP` by that
amount. -/
theorem C8_amended_caps_with_separators (files : List (Str × Str)) :
    (∀ b ∈ lmtGo files 0, ∃ p ∈ files, ∃ k, k ≤ PER_FILE_CAP ∧
        b = fileHeader p.1 ++ p.2.take k) ∧
    blockTotal (lmtGo files 0) ≤ GLOBAL_CAP ∧
    (_load_materials_text files).length =
      blockTotal (lmtGo files 0) + ((lmtGo files 0).length - 1) := by
  refine ⟨lmtGo_blocks_shape files 0, ?_, pyJoin_newline_length _⟩
  have h := lmtGo_total_le files 0 (Nat.zero_le _)
  omega

/-- **C8** counterexample: on three files of 250 000 `'x'`s the accumulated
block total is exactly `GLOBAL_CAP = 500000`, but the returned blob includes
two `"\n"` join separators and has length 500 002 — the claim's "the total
blob never exceeds the fixed global character budget" is false. -/
theorem C8_counterexample_blob_exceeds_cap :
    (_load_materials_text c8Files).length = 500002 ∧
    GLOBAL_CAP < (_load_materials_text c8Files).length := by
  suffices h : ∀ r : Str, r.length = 250000 →
      (_load_materials_text [(['a'], r), (['a'], r), (['a'], r)]).length = 500002 by
    have hmain := h (List.replicate 250000 'x') (List.length_replicate _ _)
    refine ⟨hmain, ?_⟩
    rw [show _load_materials_text c8Files =
      _load_materials_text [(['a'], List.replicate 250000 'x'),
        (['a'], List.replicate 250000 'x'), (['a'], List.replicate 250000 'x')] from rfl]
    rw [hmain]
    norm_num [GLOBAL_CAP]
  intro r hr
  have hne : ¬ r = [] := by
    intro hcon
    rw [hcon] at hr
    simp at hr
  have hH : (fileHeader ['a']).length = 17 := by decide
  have hB : (fileHeader ['a'] ++ r.take PER_FILE_CAP).length = 200017 := by
    rw [List.length_append, List.length_take, hr, hH]
    simp only [PER_FILE_CAP]
    omega
  have hB3 : (fileHeader ['a'] ++
      (r.take PER_FILE_CAP).take
        (GLOBAL_CAP - 400034 - (fileHeader ['a']).length)).length = 99966 := by
    rw [List.length_append, List.length_take, List.length_take, hr, hH]
    simp only [PER_FILE_CAP, GLOBAL_CAP]
    omega
  have e1 : lmtGo [(['a'], r), (['a'], r), (['a'], r)] 0 =
      (fileHeader ['a'] ++ r.take PER_FILE_CAP) ::
        lmtGo [(['a'], r), (['a'], r)] 200017 := by
    rw [lmtGo_cons_no_overflow _ _ _ _ hne (by rw [hB]; norm_num [GLOBAL_CAP])]
    rw [hB, Nat.zero_add]
  have e2 : lmtGo [(['a'], r), (['a'], r)] 200017 =
      (fileHeader ['a'] ++ r.take PER_FILE_CAP) :: lmtGo [(['a'], r)] 400034 := by
    rw [lmtGo_cons_no_overflow _ _ _ _ hne (by rw [hB]; norm_num [GLOBAL_CAP])]
    rw [hB, show 200017 + 200017 = 400034 from by norm_num]
  have e3 : lmtGo [(['a'], r)] 400034 =
      [fileHeader ['a'] ++
        (r.take PER_FILE_CAP).take (GLOBAL_CAP - 400034 - (fileHeader ['a']).length)] := by
    rw [lmtGo_cons_truncate _ _ _ _ hne (by rw [hB]; norm_num [GLOBAL_CAP])
      (by rw [hH]; norm_num [GLOBAL_CAP]) (by rw [hB3]; norm_num [GLOBAL_CAP])]
  rw [show _load_materials_text [(['a'], r), (['a'], r), (['a'], r)] =
    pyJoin ['\n'] (lmtGo [(['a'], r), (['a'], r), (['a'], r)] 0) from rfl]
  rw [e1, e2, e3, pyJoin_newline_length]
  simp only [blockTotal, List.map_cons, List.map_nil, List.sum_cons, List.sum_nil,
    List.length_cons, List.length_nil, hB, hB3]
  omega

/-- An append with a non-empty left part is non-empty. -/
theorem append_ne_nil_left {α : Type} (a b : List α) (h : a ≠ []) : a ++ b ≠ [] := by
  cases a with
  | nil => exact absurd rfl h
  | cons x xs => simp

/-- `pyJoin` of at least two pieces with a non-empty separator is
non-empty. -/
theorem pyJoin_ne_nil_of_two (sep : Str) (l : List Str) (hsep : sep ≠ [])
    (hl : 2 ≤ l.length) : pyJoin sep l ≠ [] := by
  cases l with
  | nil => simp at hl
  | cons x t =>
    cases t with
    | nil => simp at hl
    | cons y xs =>
      simp only [pyJoin]
      intro hcon
      have h1 := (List.append_eq_nil.mp hcon).1
      have h2 := (List.append_eq_nil.mp h1).2
      exact hsep h2

/-- The flat-text composer always produces a non-empty script (it always
emits intro and outro lines). -/
theorem two_host_local_dialogue_ne_nil (m : Str) : two_host_local_dialogue m ≠ [] := by
  simp only [two_host_local_dialogue]
  apply pyJoin_ne_nil_of_two
  · simp
  · simp only [List.length_append, List.length_cons, List.length_nil]
    omega

/-- The pillar composer always produces a non-empty script. -/
theorem two_host_local_from_pillar_ne_nil (p : Pillar) :
    two_host_local_from_pillar p ≠ [] := by
  simp only [two_host_local_from_pillar]
  apply pyJoin_ne_nil_of_two
  · simp
  · simp only [List.append_assoc, List.length_append, List.length_cons, List.length_nil]
    omega

/-- `generate_script` never returns an empty script: a non-empty remote
response is used verbatim and every other outcome falls back to the local
composer. -/
theorem generate_script_ne_nil (r : RemoteOutcome) (p : Str) :
    generate_script r p ≠ [] := by
  cases r with
  | noClient => exact two_host_local_dialogue_ne_nil _
  | raised => exact two_host_local_dialogue_ne_nil _
  | content c =>
    simp only [generate_script]
    split
    · exact two_host_local_dialogue_ne_nil _
    · rename_i hc
      exact hc

/-- `generate_script_from_pillar` never returns an empty script. -/
theorem generate_script_from_pillar_ne_nil (r : RemoteOutcome) (p : Pillar) :
    generate_script_from_pillar r p ≠ [] := by
  cases r with
  | noClient => exact two_host_local_from_pillar_ne_nil _
  | raised => exact two_host_local_from_pillar_ne_nil _
  | content c =>
    simp only [generate_script_from_pillar]
    split
    · exact two_host_local_from_pillar_ne_nil _
    · rename_i hc
      exact hc

/-- The synthetic placeholder script is non-empty. -/
theorem placeholderScript_ne_nil (t : Str) (u : List Str) :
    placeholderScript t u ≠ [] := by
  unfold placeholderScript
  repeat apply append_ne_nil_left
  decide

/-- **C10**: an empty supplied script (`script = ""`) is falsy for the
checkpoint's guard, so the script-acquisition checkpoint treats the job
exactly as if `script = None` (same success result, including the
producer-invocation flag, for any environment), and on success the stored
script is a produced or placeholder script, which is never the empty
string. -/
theorem C10_empty_script_like_none (env : Env) (now i : Nat) (j : Job) :
    exceptOk (scriptCheckpoint env now i { j with script := some [] }) =
      exceptOk (scriptCheckpoint env now i { j with script := none }) ∧
    (∀ j1 inv, scriptCheckpoint env now i { j with script := some [] } = .ok (j1, inv) →
      ∃ g, j1.script = some g ∧ g ≠ []) := by
  constructor
  · cases hR : excAt env ExcPoint.resolve with
    | some m => simp [scriptCheckpoint, pyTruthy, hR, exceptOk]
    | none =>
      cases hP : env.pillar with
      | some pillar =>
        cases hE : excAt env ExcPoint.produce with
        | some m => simp [scriptCheckpoint, pyTruthy, hR, hP, hE, exceptOk]
        | none => simp [scriptCheckpoint, pyTruthy, hR, hP, hE, exceptOk]
      | none =>
        by_cases hM : (pyStrip env.materialsText).isEmpty = true
        · simp [scriptCheckpoint, pyTruthy, hR, hP, hM, exceptOk]
        · cases hE : excAt env ExcPoint.produce with
          | some m => simp [scriptCheckpoint, pyTruthy, hR, hP, hM, hE, exceptOk]
          | none => simp [scriptCheckpoint, pyTruthy, hR, hP, hM, hE, exceptOk]
  · intro j1 inv hok
    cases hR : excAt env ExcPoint.resolve with
    | some m => simp [scriptCheckpoint, pyTruthy, hR] at hok
    | none =>
      cases hP : env.pillar with
      | some pillar =>
        cases hE : excAt env ExcPoint.produce with
        | some m => simp [scriptCheckpoint, pyTruthy, hR, hP, hE] at hok
        | none =>
          simp [scriptCheckpoint, pyTruthy, hR, hP, hE] at hok
          obtain ⟨hj, hinv⟩ := hok
          subst hj
          exact ⟨generate_script_from_pillar env.remotePillar pillar, rfl,
            generate_script_from_pillar_ne_nil _ _⟩
      | none =>
        by_cases hM : (pyStrip env.materialsText).isEmpty = true
        · simp [scriptCheckpoint, pyTruthy, hR, hP, hM] at hok
          obtain ⟨hj, hinv⟩ := hok
          subst hj
          exact ⟨placeholderScript _ _, rfl, placeholderScript_ne_nil _ _⟩
        · cases hE : excAt env ExcPoint.produce with
          | some m => simp [scriptCheckpoint, pyTruthy, hR, hP, hM, hE] at hok
          | none =>
            simp [scriptCheckpoint, pyTruthy, hR, hP, hM, hE] at hok
            obtain ⟨hj, hinv⟩ := hok
            subst hj
            exact ⟨generate_script env.remoteFlat _, rfl, generate_script_ne_nil _ _⟩

/-- Witness for C10: the checkpoint on a concrete job with `script = ""` in
the no-materials environment. -/
theorem C10_witness :
    exceptOk (scriptCheckpoint sampleEnv 3 1 { sampleJob with script := some [] }) =
      exceptOk (scriptCheckpoint sampleEnv 3 1 { sampleJob with script := none }) ∧
    (∀ j1 inv,
      scriptCheckpoint sampleEnv 3 1 { sampleJob with script := some [] } = .ok (j1, inv) →
      ∃ g, j1.script = some g ∧ g ≠ []) :=
  C10_empty_script_like_none sampleEnv 3 1 sampleJob

/-- **C9**: the delete-or-cancel operation never removes a `cancelled` job:
it re-marks it `cancelled` with `updated_at` bumped to the operation time and
returns its snapshot; and the only jobs it ever removes from the store are in
status `done` or `failed`. -/
theorem C9_cancelled_never_deleted (now : Nat) (j : Job) (art : Bool)
    (h : j.status = Status.cancelled) :
    cancel_or_delete now j art =
      (some { j with status := Status.cancelled, updated_at := now }, art,
       _as_status { j with status := Status.cancelled, updated_at := now }) ∧
    ∀ (now2 : Nat) (j2 : Job) (art2 : Bool),
      (cancel_or_delete now2 j2 art2).1 = none →
      j2.status = Status.done ∨ j2.status = Status.failed := by
  constructor
  · have hne : ¬ (j.status = Status.done ∨ j.status = Status.failed) := by
      rw [h]
      rintro (hc | hc) <;> exact Status.noConfusion hc
    simp [cancel_or_delete, hne]
  · intro now2 j2 art2 hdel
    by_cases h2 : j2.status = Status.done ∨ j2.status = Status.failed
    · exact h2
    · simp [cancel_or_delete, h2] at hdel

/-- Witness for C9 at a concrete cancelled job. -/
theorem C9_witness :
    cancel_or_delete 5 { sampleJob with status := Status.cancelled } true =
      (some { { sampleJob with status := Status.cancelled } with
                status := Status.cancelled, updated_at := 5 }, true,
       _as_status { { sampleJob with status := Status.cancelled } with
                     status := Status.cancelled, updated_at := 5 }) ∧
    ∀ (now2 : Nat) (j2 : Job) (art2 : Bool),
      (cancel_or_delete now2 j2 art2).1 = none →
      j2.status = Status.done ∨ j2.status = Status.failed :=
  C9_cancelled_never_deleted 5 { sampleJob with status := Status.cancelled } true rfl

end Podcast
